import Mathlib

/-!
Shallow embedding of the benchmark harness (`bench/run.ts` of the
`nuremageris` repository) and proofs about it.

Durations are modelled as exact rationals (`ℚ`); the source operates on
JavaScript numbers.  The one JavaScript-number behaviour that matters to the
harness and is not rational arithmetic is `0 / 0 = NaN` (the mean of an empty
timing sequence), which is modelled explicitly by `JsNum`.
-/

/-- A JavaScript number that is either an actual (rational) value or `NaN`.
`NaN` arises in the harness only from `0 / 0` in `computeStats`. -/
inductive JsNum where
  | nan : JsNum
  | num (q : ℚ) : JsNum
deriving DecidableEq

/-- JavaScript division as used in `computeStats`: `sum / length`.
`0 / 0` is `NaN`.  (A nonzero numerator over zero would be `Infinity`, but in
the harness the numerator is a sum over a list whose length is the
denominator, so the denominator is zero only when the numerator is.) -/
def jsDiv (a b : ℚ) : JsNum :=
  if b = 0 then JsNum.nan else JsNum.num (a / b)

/-- `percentile(sorted, p)` from `bench/run.ts`:
```
if (sorted.length === 0) return 0
const idx = Math.ceil((p / 100) * sorted.length) - 1
return sorted[Math.max(0, idx)]
```
The source clamps the index from below only; reading `sorted[idx]` past the
end (possible only for `p > 100`, which the harness never passes) yields
JavaScript `undefined`, modelled here by the `getD` default. -/
def percentile (sorted : List ℚ) (p : ℚ) : ℚ :=
  if sorted.length = 0 then 0
  else
    let idx : ℤ := Int.ceil (p / 100 * (sorted.length : ℚ)) - 1
    sorted.getD (max 0 idx).toNat 0

/-- The six derived statistics of a run. -/
structure Stats where
  mean : JsNum
  p50 : ℚ
  p95 : ℚ
  p99 : ℚ
  min : ℚ
  max : ℚ
deriving DecidableEq

/-- `computeStats(timings)` from `bench/run.ts`:
```
const sorted = [...timings].sort((a, b) => a - b)
const mean   = timings.reduce((s, v) => s + v, 0) / timings.length
return { mean, p50: percentile(sorted, 50), p95: percentile(sorted, 95),
         p99: percentile(sorted, 99), min: sorted[0] ?? 0,
         max: sorted[sorted.length - 1] ?? 0 }
```
`[...]sort((a,b) => a-b)` sorts a copy ascending, modelled by
`List.insertionSort`. -/
def computeStats (timings : List ℚ) : Stats :=
  let sorted := List.insertionSort (fun a b => a ≤ b) timings
  { mean := jsDiv (timings.foldl (fun s v => s + v) 0) ((timings.length : ℚ))
    p50 := percentile sorted 50
    p95 := percentile sorted 95
    p99 := percentile sorted 99
    min := sorted.headD 0
    max := sorted.getLastD 0 }

/-- The `RunResult` record of `bench/run.ts` (field `case` is a Lean keyword
and is rendered `caseName`). -/
structure RunResult where
  adapter : String
  caseName : String
  warmup : Nat
  iterations : Nat
  timings_ms : List ℚ
  mean : JsNum
  p50 : ℚ
  p95 : ℚ
  p99 : ℚ
  min : ℚ
  max : ℚ
  errors : Nat
deriving DecidableEq

/-- The observable behaviour of a `BenchCase`'s optional lifecycle hooks:
`none` = the hook is not defined, `some true` = defined and resolves,
`some false` = defined and rejects (throws). The measured operation
`bench.run` is modelled separately by the oracles `opOk`/`opDur` over a
global invocation counter. -/
structure BenchBehavior where
  setup : Option Bool
  teardown : Option Bool
deriving DecidableEq

/-- Trace of the externally observable calls one `runCase` performs. Each
measured-operation call is recorded with its global invocation index and
whether it succeeded. -/
structure RunTrace where
  setupCalls : Nat
  warmupCalls : List (Nat × Bool)
  measuredCalls : List (Nat × Bool)
  teardownCalls : Nat
deriving DecidableEq

/-- One turn of the measurement loop of `runCase` (`bench/run.ts`):
```
const t0 = performance.now()
try { await bench.run(adapter, ctx) } catch { errors++ }
timings.push(performance.now() - t0)
```
The state is the pair (timings so far, errors so far); `j` is the global
invocation index of this call; `opDur j` is the elapsed wall-clock duration
`performance.now() - t0`. -/
def measureStep (opOk : Nat → Bool) (opDur : Nat → ℚ) (st : List ℚ × Nat) (j : Nat) :
    List ℚ × Nat :=
  (st.1 ++ [opDur j], if opOk j then st.2 else st.2 + 1)

/-- `runCase(adapter, caseName, adapterName, warmup, iterations)` from
`bench/run.ts`.  `bench?` is the `caseMap[caseName]` lookup (`none` models the
`Unknown case` throw); `opOk j` / `opDur j` give the outcome and elapsed
duration of the `j`-th invocation of the measured operation (warmup uses
invocations `0..warmup-1`, measurement `warmup..warmup+iterations-1`).
A thrown error is `Except.error ()`; the trace records the calls made. -/
def runCase (adapterName caseName : String) (bench? : Option BenchBehavior)
    (opOk : Nat → Bool) (opDur : Nat → ℚ) (warmup iterations : Nat) :
    RunTrace × Except Unit RunResult :=
  match bench? with
  | none => (⟨0, [], [], 0⟩, Except.error ())
  | some bench =>
    -- setup: a failure is propagated before any warmup or measurement
    let sc := if bench.setup = none then 0 else 1
    if bench.setup = some false then
      (⟨sc, [], [], 0⟩, Except.error ())
    else
      -- warmup: `try { await bench.run(...) } catch { /* ignore */ }`
      let warmupCalls := (List.range warmup).map (fun i => (i, opOk i))
      -- measurement loop
      let measuredIdx := (List.range iterations).map (fun i => warmup + i)
      let ms := measuredIdx.foldl (measureStep opOk opDur) ([], 0)
      let measuredCalls := measuredIdx.map (fun j => (j, opOk j))
      -- teardown: `if (bench.teardown) await bench.teardown(adapter, ctx)`
      let tc := if bench.teardown = none then 0 else 1
      if bench.teardown = some false then
        (⟨sc, warmupCalls, measuredCalls, tc⟩, Except.error ())
      else
        let stats := computeStats ms.1
        (⟨sc, warmupCalls, measuredCalls, tc⟩,
         Except.ok
          { adapter := adapterName
            caseName := caseName
            warmup := warmup
            iterations := iterations
            timings_ms := ms.1
            mean := stats.mean
            p50 := stats.p50
            p95 := stats.p95
            p99 := stats.p99
            min := stats.min
            max := stats.max
            errors := ms.2 })

/-- The three digits after the decimal point: the fractional part `f < 1000`
zero-padded to width 3, exactly as `Number.prototype.toFixed(3)` renders it. -/
def fracPad3 (f : Nat) : String :=
  String.mk [Nat.digitChar (f / 100 % 10), Nat.digitChar (f / 10 % 10),
             Nat.digitChar (f % 10)]

/-- `x.toFixed(3)` for a nonnegative JavaScript number `x`: the decimal
numeral of the integer nearest to `x * 1000` (ties round up, per the
ECMAScript `toFixed` algorithm picking the larger candidate), with a decimal
point before the last three digits.  The source only ever formats
nonnegative statistics; this model is idealized to exact rationals. -/
def toFixed3OfRat (q : ℚ) : String :=
  let n : Nat := (Int.floor (q * 1000 + 1 / 2)).toNat
  Nat.repr (n / 1000) ++ "." ++ fracPad3 (n % 1000)

/-- `x.toFixed(3)` on a possibly-NaN JavaScript number: `(NaN).toFixed(3)`
is the string `"NaN"`. -/
def toFixed3 (x : JsNum) : String :=
  match x with
  | JsNum.nan => "NaN"
  | JsNum.num q => toFixed3OfRat q

/-- The fixed CSV header of `toCsv` in `bench/run.ts`. -/
def csvHeader : String :=
  "adapter,case,iterations,mean_ms,p50_ms,p95_ms,p99_ms,min_ms,max_ms,errors"

/-- One data row of the summary table:
```
[r.adapter, r.case, r.iterations,
 r.mean.toFixed(3), r.p50.toFixed(3), r.p95.toFixed(3),
 r.p99.toFixed(3), r.min.toFixed(3), r.max.toFixed(3),
 r.errors].join(',')
``` -/
def csvRow (r : RunResult) : String :=
  String.intercalate ","
    [r.adapter, r.caseName, Nat.repr r.iterations,
     toFixed3 r.mean, toFixed3 (JsNum.num r.p50), toFixed3 (JsNum.num r.p95),
     toFixed3 (JsNum.num r.p99), toFixed3 (JsNum.num r.min),
     toFixed3 (JsNum.num r.max), Nat.repr r.errors]

/-- `toCsv(results)` from `bench/run.ts`: header line followed by one row per
result, joined with newlines. -/
def toCsv (results : List RunResult) : String :=
  String.intercalate "\n" (csvHeader :: results.map csvRow)

/-- The externally observable steps of `main`'s strategy×case matrix:
constructing an adapter, running one case against it (with its outcome), and
closing (releasing) the adapter. -/
inductive MainEvent where
  | createA (name : String) : MainEvent
  | runC (adapterName caseName : String) (ok : Bool) : MainEvent
  | closeA (name : String) : MainEvent
deriving DecidableEq

/-- The inner `for (const caseName of caseNames)` loop of `main`:
runs cases in order until one throws; `outcome a c = false` models
`runCase` rejecting (e.g. a setup failure).  Returns the events and whether
the loop completed without an exception. -/
def runCasesLoop (a : String) (caseNames : List String)
    (outcome : String → String → Bool) : List MainEvent × Bool :=
  match caseNames with
  | [] => ([], true)
  | c :: rest =>
    if outcome a c then
      let r := runCasesLoop a rest outcome
      (MainEvent.runC a c true :: r.1, r.2)
    else ([MainEvent.runC a c false], false)

/-- The outer `for (const adapterName of adapterNames)` loop of `main`:
```
const adapter = createAdapter(adapterName)
try { for (const caseName of caseNames) { ... await runCase(...) ... } }
finally { await adapter.close() }
```
The `finally` closes the adapter on both exit paths; an exception then
continues to propagate, aborting the remaining strategies. -/
def strategiesLoop (adapterNames caseNames : List String)
    (outcome : String → String → Bool) : List MainEvent × Bool :=
  match adapterNames with
  | [] => ([], true)
  | a :: rest =>
    let r := runCasesLoop a caseNames outcome
    let block := MainEvent.createA a :: r.1 ++ [MainEvent.closeA a]
    if r.2 then
      let r2 := strategiesLoop rest caseNames outcome
      (block ++ r2.1, r2.2)
    else (block, false)

/-- The adapter registry names (`ADAPTER_NAMES` in `bench/run.ts`). -/
def ADAPTER_NAMES : List String := ["raw", "knex", "dal", "orm"]

/-- The `console.error` message for an unknown adapter name in `main`:
`Unknown adapter "<a>". Valid: raw, knex, dal, orm`. -/
def unknownAdapterMsg (a : String) (valid : List String) : String :=
  "Unknown adapter \"" ++ a ++ "\". Valid: " ++ String.intercalate ", " valid

/-- The `console.error` message for an unknown case name in `main`. -/
def unknownCaseMsg (c : String) (validCases : List String) : String :=
  "Unknown case \"" ++ c ++ "\". Valid: " ++ String.intercalate ", " validCases

/-- First requested name not present in the registry, if any (the validation
loops of `main` exit at the first offender). -/
def firstUnknown (requested valid : List String) : Option String :=
  requested.find? (fun x => !valid.contains x)

/-- The orchestration skeleton of `main` in `bench/run.ts`: validate every
requested adapter and case name up front (exiting with status 1 and a
diagnostic on the first unknown name, before any adapter is constructed),
then run the strategy×case matrix; an unrecovered case error propagates to
`main().catch`, which also exits with status 1 (modelled by
`Except.error "case run failed"`). -/
def mainModel (adapterNames caseNames validCases : List String)
    (outcome : String → String → Bool) : List MainEvent × Except String Unit :=
  match firstUnknown adapterNames ADAPTER_NAMES with
  | some a => ([], Except.error (unknownAdapterMsg a ADAPTER_NAMES))
  | none =>
    match firstUnknown caseNames validCases with
    | some c => ([], Except.error (unknownCaseMsg c validCases))
    | none =>
      let r := strategiesLoop adapterNames caseNames outcome
      (r.1, if r.2 then Except.ok () else Except.error "case run failed")

/-- Characterization of the measurement loop: starting from accumulator
`acc`, it appends one elapsed duration per index and adds one error per
failing invocation. -/
theorem measure_foldl (opOk : Nat → Bool) (opDur : Nat → ℚ) :
    ∀ (l : List Nat) (acc : List ℚ × Nat),
      l.foldl (measureStep opOk opDur) acc =
        (acc.1 ++ l.map opDur, acc.2 + l.countP (fun j => !opOk j)) := by
  intro l
  induction l with
  | nil => intro acc; simp
  | cons j rest ih =>
    intro acc
    rw [List.foldl_cons, ih]
    unfold measureStep
    by_cases h : opOk j = true
    · simp [h, List.countP_cons]
    · simp [h, List.countP_cons]
      omega

/-- Characterization of `runCase` on the non-throwing path: when the case is
registered and neither setup nor teardown rejects, the run completes with the
full trace and the assembled `RunResult`. -/
theorem runCase_ok (an cn : String) (bench : BenchBehavior)
    (opOk : Nat → Bool) (opDur : Nat → ℚ) (w n : Nat)
    (hs : bench.setup ≠ some false) (ht : bench.teardown ≠ some false) :
    runCase an cn (some bench) opOk opDur w n =
      (⟨if bench.setup = none then 0 else 1,
        (List.range w).map (fun i => (i, opOk i)),
        (List.range n).map (fun i => (w + i, opOk (w + i))),
        if bench.teardown = none then 0 else 1⟩,
       Except.ok
        { adapter := an
          caseName := cn
          warmup := w
          iterations := n
          timings_ms := (List.range n).map (fun i => opDur (w + i))
          mean := (computeStats ((List.range n).map (fun i => opDur (w + i)))).mean
          p50 := (computeStats ((List.range n).map (fun i => opDur (w + i)))).p50
          p95 := (computeStats ((List.range n).map (fun i => opDur (w + i)))).p95
          p99 := (computeStats ((List.range n).map (fun i => opDur (w + i)))).p99
          min := (computeStats ((List.range n).map (fun i => opDur (w + i)))).min
          max := (computeStats ((List.range n).map (fun i => opDur (w + i)))).max
          errors := (List.range n).countP (fun i => !opOk (w + i)) }) := by
  simp only [runCase]
  rw [if_neg hs, if_neg ht]
  rw [measure_foldl]
  simp [List.map_map, Function.comp_def, List.countP_map]

/-- Indexing anywhere into `[0, 0]` with default `0` yields `0`. -/
theorem getD_pair_zero : ∀ k : Nat, ([0, 0] : List ℚ).getD k 0 = 0
  | 0 => rfl
  | 1 => rfl
  | _ + 2 => rfl

/-- Any percentile of the two-sample all-zero sequence is `0`. -/
theorem percentile_pair_zero (p : ℚ) : percentile [0, 0] p = 0 := by
  unfold percentile
  rw [if_neg (by simp)]
  exact getD_pair_zero _

/-- Statistics of the two-sample all-zero sequence. -/
theorem computeStats_pair_zero :
    computeStats [0, 0] =
      { mean := JsNum.num 0, p50 := 0, p95 := 0, p99 := 0, min := 0, max := 0 } := by
  norm_num [computeStats, List.insertionSort, List.orderedInsert,
    percentile_pair_zero, jsDiv]

/-- Claim C1: every `RunResult` produced by `runCase` has a `timings_ms`
sequence whose length equals the iteration count, for every iteration count
`n ≥ 0` and every behaviour of the measured operation (including one that
fails on every invocation), and its error count is at most `iterations`. -/
theorem runCase_result_length_and_errors (an cn : String)
    (bench? : Option BenchBehavior) (opOk : Nat → Bool) (opDur : Nat → ℚ)
    (w n : Nat) (r : RunResult)
    (h : (runCase an cn bench? opOk opDur w n).2 = Except.ok r) :
    r.iterations = n ∧ r.timings_ms.length = r.iterations ∧
      r.errors ≤ r.iterations := by
  match bench? with
  | none => simp [runCase] at h
  | some bench =>
    by_cases hs : bench.setup = some false
    · simp [runCase, hs] at h
    · by_cases ht : bench.teardown = some false
      · simp only [runCase, if_neg hs, if_pos ht] at h
        exact absurd h (by simp)
      · rw [runCase_ok an cn bench opOk opDur w n hs ht] at h
        simp only [Except.ok.injEq] at h
        subst h
        refine ⟨rfl, by simp, ?_⟩
        simpa using List.countP_le_length (l := List.range n)
          (p := fun i => !opOk (w + i))

/-- Witness for C1 at a concrete input: warmup 1, two iterations, an
operation that fails every time. -/
theorem runCase_result_length_and_errors_witness :
    ∃ r : RunResult,
      (runCase "raw" "ping" (some ⟨none, none⟩) (fun _ => false) (fun _ => 0)
        1 2).2 = Except.ok r ∧
      r.iterations = 2 ∧ r.timings_ms.length = r.iterations ∧
        r.errors ≤ r.iterations := by
  have h : (runCase "raw" "ping" (some ⟨none, none⟩) (fun _ => false)
      (fun _ => 0) 1 2).2 =
      Except.ok
        { adapter := "raw", caseName := "ping", warmup := 1, iterations := 2,
          timings_ms := [0, 0], mean := JsNum.num 0, p50 := 0, p95 := 0,
          p99 := 0, min := 0, max := 0, errors := 2 } := by
    rw [runCase_ok "raw" "ping" ⟨none, none⟩ (fun _ => false) (fun _ => 0) 1 2
      (by simp) (by simp)]
    simp [computeStats_pair_zero, List.range_succ]
  refine ⟨_, h, ?_⟩
  have := runCase_result_length_and_errors "raw" "ping" (some ⟨none, none⟩)
    (fun _ => false) (fun _ => 0) 1 2 _ h
  exact ⟨this.1, this.2.1, this.2.2⟩

/-- Characterization of `runCase` when teardown rejects: the full warmup and
measurement phases ran, teardown was invoked, and the error propagates —
no `RunResult` is returned. -/
theorem runCase_teardown_err (an cn : String) (bench : BenchBehavior)
    (opOk : Nat → Bool) (opDur : Nat → ℚ) (w n : Nat)
    (hs : bench.setup ≠ some false) (ht : bench.teardown = some false) :
    runCase an cn (some bench) opOk opDur w n =
      (⟨if bench.setup = none then 0 else 1,
        (List.range w).map (fun i => (i, opOk i)),
        (List.range n).map (fun i => (w + i, opOk (w + i))),
        1⟩, Except.error ()) := by
  simp only [runCase]
  rw [if_neg hs, if_pos ht, ht]
  simp [List.map_map, Function.comp_def]

/-- Claim C4: in the measurement phase, each of the `n` iterations appends
its elapsed duration to the timing sequence whether or not the operation
failed, each failure adds exactly one to the error counter, and the run
completes normally; with an operation failing on every invocation the result
has `errors = n` and a full timing sequence. -/
theorem runCase_measured_iteration_policy (an cn : String)
    (bench : BenchBehavior) (opOk : Nat → Bool) (opDur : Nat → ℚ) (w n : Nat)
    (hs : bench.setup ≠ some false) (ht : bench.teardown ≠ some false) :
    ∃ r : RunResult,
      (runCase an cn (some bench) opOk opDur w n).2 = Except.ok r ∧
      r.timings_ms = (List.range n).map (fun i => opDur (w + i)) ∧
      r.errors = ((List.range n).filter (fun i => !opOk (w + i))).length ∧
      r.iterations = n ∧
      ((∀ j, opOk j = false) → r.errors = n ∧ r.timings_ms.length = n) := by
  rw [runCase_ok an cn bench opOk opDur w n hs ht]
  refine ⟨_, rfl, rfl, ?_, rfl, ?_⟩
  · exact List.countP_eq_length_filter _ _
  · intro hall
    constructor
    · show (List.range n).countP (fun i => !opOk (w + i)) = n
      have hp : ∀ i ∈ List.range n, (fun i => !opOk (w + i)) i = true := by
        intro i _
        simp [hall]
      rw [List.countP_eq_length.mpr hp, List.length_range]
    · simp

/-- Witness for C4: warmup 1, two iterations, operation failing every time;
both elapsed durations are recorded and both failures are counted. -/
theorem runCase_measured_iteration_policy_witness :
    ∃ r : RunResult,
      (runCase "raw" "ping" (some ⟨none, none⟩) (fun _ => false) (fun _ => 0)
        1 2).2 = Except.ok r ∧
      r.timings_ms = (List.range 2).map (fun i => (fun _ => (0 : ℚ)) (1 + i)) ∧
      r.errors =
        ((List.range 2).filter (fun i => !(fun _ => false) (1 + i))).length ∧
      r.iterations = 2 ∧
      ((∀ j : Nat, (fun _ => false) j = false) →
        r.errors = 2 ∧ r.timings_ms.length = 2) :=
  runCase_measured_iteration_policy "raw" "ping" ⟨none, none⟩ (fun _ => false)
    (fun _ => 0) 1 2 (by simp) (by simp)

/-- Counterexample to claim C6 as stated: at a concrete input whose teardown
rejects, the measurement phase completed (both iterations ran) yet `runCase`
returns an error and yields no `RunResult` at all — the collected timings
are discarded, not surfaced alongside the result. -/
theorem runCase_teardown_failure_cex :
    (runCase "raw" "ping" (some ⟨none, some false⟩) (fun _ => true)
        (fun _ => 0) 0 2).1.measuredCalls.length = 2 ∧
    (runCase "raw" "ping" (some ⟨none, some false⟩) (fun _ => true)
        (fun _ => 0) 0 2).2 = Except.error () := by
  exact ⟨rfl, rfl⟩

/-- Claim C6 as amended: if the teardown operation of a case fails after the
measurement phase, the failure is surfaced to the caller by propagating the
error, but the already-computed measurements are discarded with it: `runCase`
yields `Except.error` and no `RunResult`, even though all `n` measured
iterations and the teardown call did happen. -/
theorem runCase_teardown_failure_propagates (an cn : String)
    (bench : BenchBehavior) (opOk : Nat → Bool) (opDur : Nat → ℚ) (w n : Nat)
    (hs : bench.setup ≠ some false) (ht : bench.teardown = some false) :
    (runCase an cn (some bench) opOk opDur w n).2 = Except.error () ∧
    (runCase an cn (some bench) opOk opDur w n).1.measuredCalls.length = n ∧
    (runCase an cn (some bench) opOk opDur w n).1.teardownCalls = 1 := by
  rw [runCase_teardown_err an cn bench opOk opDur w n hs ht]
  simp

/-- Witness for the amended C6 at a concrete input. -/
theorem runCase_teardown_failure_propagates_witness :
    (runCase "raw" "insertOrder" (some ⟨some true, some false⟩)
        (fun _ => true) (fun _ => 0) 1 3).2 = Except.error () ∧
    (runCase "raw" "insertOrder" (some ⟨some true, some false⟩)
        (fun _ => true) (fun _ => 0) 1 3).1.measuredCalls.length = 3 ∧
    (runCase "raw" "insertOrder" (some ⟨some true, some false⟩)
        (fun _ => true) (fun _ => 0) 1 3).1.teardownCalls = 1 :=
  runCase_teardown_failure_propagates "raw" "insertOrder"
    ⟨some true, some false⟩ (fun _ => true) (fun _ => 0) 1 3 (by simp) rfl

/-- Claim C8: during warmup the measured operation is invoked exactly
`warmupCount` times sequentially (invocations `0 .. warmupCount-1`, in
order), and warmup behaviour is fully absorbed: the run's returned value —
hence its error counter and timing sequence — is unchanged under any change
of the operation's behaviour on the warmup invocations. -/
theorem runCase_warmup_policy (an cn : String) (bench : BenchBehavior)
    (opOk opOk' : Nat → Bool) (opDur opDur' : Nat → ℚ) (w n : Nat)
    (hs : bench.setup ≠ some false)
    (hOk : ∀ j, w ≤ j → opOk j = opOk' j)
    (hDur : ∀ j, w ≤ j → opDur j = opDur' j) :
    (runCase an cn (some bench) opOk opDur w n).1.warmupCalls =
      (List.range w).map (fun i => (i, opOk i)) ∧
    (runCase an cn (some bench) opOk opDur w n).1.warmupCalls.length = w ∧
    (runCase an cn (some bench) opOk opDur w n).2 =
      (runCase an cn (some bench) opOk' opDur' w n).2 := by
  have hmap : (List.range n).map (fun i => opDur (w + i)) =
      (List.range n).map (fun i => opDur' (w + i)) := by
    apply List.map_congr_left
    intro i _
    exact hDur (w + i) (Nat.le_add_right w i)
  have hcnt : (List.range n).countP (fun i => !opOk (w + i)) =
      (List.range n).countP (fun i => !opOk' (w + i)) := by
    apply List.countP_congr
    intro i _
    simp [hOk (w + i) (Nat.le_add_right w i)]
  by_cases ht : bench.teardown = some false
  · rw [runCase_teardown_err an cn bench opOk opDur w n hs ht,
      runCase_teardown_err an cn bench opOk' opDur' w n hs ht]
    simp
  · rw [runCase_ok an cn bench opOk opDur w n hs ht,
      runCase_ok an cn bench opOk' opDur' w n hs ht]
    simp [hmap, hcnt]

/-- Witness for C8: warmup 1 with an operation that fails exactly on the
warmup invocation; the run's outcome equals that of an operation that never
fails. -/
theorem runCase_warmup_policy_witness :
    (runCase "raw" "ping" (some ⟨some true, some true⟩)
        (fun j => decide (1 ≤ j)) (fun _ => 0) 1 1).1.warmupCalls =
      (List.range 1).map (fun i => (i, decide (1 ≤ i))) ∧
    (runCase "raw" "ping" (some ⟨some true, some true⟩)
        (fun j => decide (1 ≤ j)) (fun _ => 0) 1 1).1.warmupCalls.length = 1 ∧
    (runCase "raw" "ping" (some ⟨some true, some true⟩)
        (fun j => decide (1 ≤ j)) (fun _ => 0) 1 1).2 =
      (runCase "raw" "ping" (some ⟨some true, some true⟩)
        (fun _ => true) (fun _ => 0) 1 1).2 :=
  runCase_warmup_policy "raw" "ping" ⟨some true, some true⟩
    (fun j => decide (1 ≤ j)) (fun _ => true) (fun _ => 0) (fun _ => 0) 1 1
    (by simp) (fun j hj => by simp [hj]) (fun j _ => rfl)

/-- For `0 < p ≤ 100` and a nonempty sequence, the nearest-rank numerator
`ceil(p/100 * n)` lies in `[1, n]`. -/
theorem percentile_index_bounds (n : Nat) (p : ℚ) (hn : 0 < n) (hp : 0 < p)
    (hple : p ≤ 100) :
    1 ≤ Int.ceil (p / 100 * (n : ℚ)) ∧ Int.ceil (p / 100 * (n : ℚ)) ≤ (n : ℤ) := by
  constructor
  · have hpos : 0 < p / 100 * (n : ℚ) := by
      apply mul_pos (div_pos hp (by norm_num))
      exact_mod_cast hn
    exact Int.ceil_pos.mpr hpos
  · apply Int.ceil_le.mpr
    calc p / 100 * (n : ℚ) ≤ 1 * (n : ℚ) := by
          apply mul_le_mul_of_nonneg_right
          · exact (div_le_one (by norm_num)).mpr hple
          · positivity
      _ = ((n : ℤ) : ℚ) := by push_cast; ring

/-- Evaluation helper: `percentile` on a nonempty list, given the value of
the ceiling. -/
theorem percentile_eval (sorted : List ℚ) (p : ℚ) (k : ℤ)
    (hne : ¬ sorted.length = 0)
    (hk : Int.ceil (p / 100 * (sorted.length : ℚ)) = k) :
    percentile sorted p = sorted.getD (max 0 (k - 1)).toNat 0 := by
  unfold percentile
  rw [if_neg hne]
  show sorted.getD
    (max 0 (Int.ceil (p / 100 * (sorted.length : ℚ)) - 1)).toNat 0 = _
  rw [hk]

/-- Claim C2: for every non-empty (ascending-sorted) sequence and every
percentile value `p` in `(0, 100]`, `percentile` returns the element at
index `ceil(p/100 * n) - 1` clamped to `[0, n-1]`; in particular on
`[10, 20, 30, 40]` the 50th, 95th and 99th percentiles are `20`, `40` and
`40`, and on any single-element sequence all three equal that element. -/
theorem percentile_nearest_rank :
    (∀ (sorted : List ℚ) (p : ℚ), sorted ≠ [] → 0 < p → p ≤ 100 →
      percentile sorted p =
        sorted.getD
          (min (max 0 (Int.ceil (p / 100 * (sorted.length : ℚ)) - 1)).toNat
            (sorted.length - 1)) 0) ∧
    percentile [10, 20, 30, 40] 50 = 20 ∧
    percentile [10, 20, 30, 40] 95 = 40 ∧
    percentile [10, 20, 30, 40] 99 = 40 ∧
    (∀ x : ℚ, percentile [x] 50 = x ∧ percentile [x] 95 = x ∧
      percentile [x] 99 = x) := by
  refine ⟨?_, ?_, ?_, ?_, ?_⟩
  · intro sorted p hne hp hple
    have hn : 0 < sorted.length := List.length_pos.mpr hne
    obtain ⟨h1, h2⟩ := percentile_index_bounds sorted.length p hn hp hple
    rw [percentile_eval sorted p (Int.ceil (p / 100 * (sorted.length : ℚ)))
      (by omega) rfl]
    rw [max_eq_right (by omega : (0 : ℤ) ≤ Int.ceil (p / 100 * (sorted.length : ℚ)) - 1)]
    rw [Nat.min_eq_left (by omega)]
  · rw [percentile_eval [10, 20, 30, 40] 50 2 (by simp) ?_]
    · rfl
    · rw [Int.ceil_eq_iff]
      constructor
      · norm_num
      · norm_num
  · rw [percentile_eval [10, 20, 30, 40] 95 4 (by simp) ?_]
    · rfl
    · rw [Int.ceil_eq_iff]
      constructor
      · norm_num
      · norm_num
  · rw [percentile_eval [10, 20, 30, 40] 99 4 (by simp) ?_]
    · rfl
    · rw [Int.ceil_eq_iff]
      constructor
      · norm_num
      · norm_num
  · intro x
    refine ⟨?_, ?_, ?_⟩
    · rw [percentile_eval [x] 50 1 (by simp) ?_]
      · rfl
      · rw [Int.ceil_eq_iff]
        constructor
        · norm_num
        · norm_num
    · rw [percentile_eval [x] 95 1 (by simp) ?_]
      · rfl
      · rw [Int.ceil_eq_iff]
        constructor
        · norm_num
        · norm_num
    · rw [percentile_eval [x] 99 1 (by simp) ?_]
      · rfl
      · rw [Int.ceil_eq_iff]
        constructor
        · norm_num
        · norm_num

/-- Witness for C2: the general clamped-index law applied at `p = 95` on
`[10, 20, 30, 40]`, and the single-element law at `x = 7`. -/
theorem percentile_nearest_rank_witness :
    percentile [10, 20, 30, 40] 95 =
      ([10, 20, 30, 40] : List ℚ).getD
        (min (max 0 (Int.ceil ((95 : ℚ) / 100 *
              ((([10, 20, 30, 40] : List ℚ).length) : ℚ)) - 1)).toNat
          ((([10, 20, 30, 40] : List ℚ).length) - 1)) 0 ∧
    percentile [(7 : ℚ)] 50 = 7 :=
  ⟨percentile_nearest_rank.1 [10, 20, 30, 40] 95 (by simp) (by norm_num)
      (by norm_num),
   (percentile_nearest_rank.2.2.2.2 7).1⟩

/-- Statistics of the empty timing sequence: the percentiles, min and max
are all `0`, while the mean is `0 / 0 = NaN`. -/
theorem computeStats_nil :
    computeStats [] =
      { mean := JsNum.nan, p50 := 0, p95 := 0, p99 := 0, min := 0, max := 0 } := by
  simp [computeStats, percentile, jsDiv, List.insertionSort]

/-- Claim C3, evaluated at the failing input: on an empty timing sequence
(`iterations == 0`) `computeStats` does complete without an error and all
percentile/min/max outputs are `0`, but the mean is JavaScript `0 / 0 = NaN`
— not `0` as the specification states. -/
theorem computeStats_empty_eval :
    computeStats [] =
      { mean := JsNum.nan, p50 := 0, p95 := 0, p99 := 0, min := 0, max := 0 } ∧
    JsNum.nan ≠ JsNum.num 0 := by
  constructor
  · exact computeStats_nil
  · simp

/-- `computeStats` projection: the median over the ascending-sorted copy. -/
theorem computeStats_p50 (t : List ℚ) :
    (computeStats t).p50 =
      percentile (List.insertionSort (fun a b => a ≤ b) t) 50 := rfl

/-- `computeStats` projection: the 95th percentile. -/
theorem computeStats_p95 (t : List ℚ) :
    (computeStats t).p95 =
      percentile (List.insertionSort (fun a b => a ≤ b) t) 95 := rfl

/-- `computeStats` projection: the 99th percentile. -/
theorem computeStats_p99 (t : List ℚ) :
    (computeStats t).p99 =
      percentile (List.insertionSort (fun a b => a ≤ b) t) 99 := rfl

/-- `computeStats` projection: `sorted[0] ?? 0`. -/
theorem computeStats_min (t : List ℚ) :
    (computeStats t).min =
      (List.insertionSort (fun a b => a ≤ b) t).headD 0 := rfl

/-- `computeStats` projection: `sorted[sorted.length - 1] ?? 0`. -/
theorem computeStats_max (t : List ℚ) :
    (computeStats t).max =
      (List.insertionSort (fun a b => a ≤ b) t).getLastD 0 := rfl

/-- `headD` is `getD` at index 0. -/
theorem headD_eq_getD (l : List ℚ) : l.headD 0 = l.getD 0 0 := by
  cases l <;> rfl

/-- `getLastD` is `getD` at the last index. -/
theorem getLastD_eq_getD (l : List ℚ) : l.getLastD 0 = l.getD (l.length - 1) 0 := by
  rw [List.getLastD_eq_getLast?, List.getLast?_eq_getElem?,
    List.getD_eq_getElem?_getD]

/-- In a sorted list, the element at a smaller index is at most the element
at a larger (in-bounds) index. -/
theorem sorted_getD_mono (sorted : List ℚ)
    (hs : List.Sorted (fun a b : ℚ => a ≤ b) sorted) (i j : Nat) (hij : i ≤ j)
    (hj : j < sorted.length) : sorted.getD i 0 ≤ sorted.getD j 0 := by
  have hi : i < sorted.length := lt_of_le_of_lt hij hj
  rw [List.getD_eq_getElem sorted 0 hi, List.getD_eq_getElem sorted 0 hj]
  have := List.Sorted.rel_get_of_le hs
    (a := ⟨i, hi⟩) (b := ⟨j, hj⟩) (Fin.mk_le_mk.mpr hij)
  simpa using this

/-- Claim C10: `percentile` is monotone in the percentile value over
`(0, 100]` on a fixed sorted sequence, and consequently the statistics of
every non-empty timing sequence are ordered
`min ≤ p50 ≤ p95 ≤ p99 ≤ max`. -/
theorem computeStats_ordered_percentile_monotone :
    (∀ (sorted : List ℚ) (p q : ℚ),
      List.Sorted (fun a b : ℚ => a ≤ b) sorted → sorted ≠ [] →
      0 < p → p ≤ q → q ≤ 100 →
      percentile sorted p ≤ percentile sorted q) ∧
    (∀ timings : List ℚ, timings ≠ [] →
      (computeStats timings).min ≤ (computeStats timings).p50 ∧
      (computeStats timings).p50 ≤ (computeStats timings).p95 ∧
      (computeStats timings).p95 ≤ (computeStats timings).p99 ∧
      (computeStats timings).p99 ≤ (computeStats timings).max) := by
  have hmono : ∀ (sorted : List ℚ) (p q : ℚ),
      List.Sorted (fun a b : ℚ => a ≤ b) sorted → sorted ≠ [] →
      0 < p → p ≤ q → q ≤ 100 →
      percentile sorted p ≤ percentile sorted q := by
    intro sorted p q hs hne hp hpq hq
    have hn : 0 < sorted.length := List.length_pos.mpr hne
    obtain ⟨hp1, hpn⟩ :=
      percentile_index_bounds sorted.length p hn hp (hpq.trans hq)
    obtain ⟨hq1, hqn⟩ :=
      percentile_index_bounds sorted.length q hn (hp.trans_le hpq) hq
    have hceil : Int.ceil (p / 100 * (sorted.length : ℚ)) ≤
        Int.ceil (q / 100 * (sorted.length : ℚ)) := by
      apply Int.ceil_mono
      apply mul_le_mul_of_nonneg_right _ (by positivity)
      linarith
    rw [percentile_eval sorted p _ (by omega) rfl,
      percentile_eval sorted q _ (by omega) rfl]
    rw [max_eq_right (by omega :
      (0 : ℤ) ≤ Int.ceil (p / 100 * (sorted.length : ℚ)) - 1)]
    rw [max_eq_right (by omega :
      (0 : ℤ) ≤ Int.ceil (q / 100 * (sorted.length : ℚ)) - 1)]
    exact sorted_getD_mono sorted hs _ _ (by omega) (by omega)
  refine ⟨hmono, ?_⟩
  intro timings hne
  rw [computeStats_p50, computeStats_p95, computeStats_p99, computeStats_min,
    computeStats_max]
  set sorted := List.insertionSort (fun a b : ℚ => a ≤ b) timings with hdef
  have hlen : sorted.length = timings.length :=
    (List.perm_insertionSort (fun a b : ℚ => a ≤ b) timings).length_eq
  have hne' : sorted ≠ [] := by
    intro h
    apply hne
    rw [h] at hlen
    exact List.length_eq_zero.mp hlen.symm
  have hn : 0 < sorted.length := List.length_pos.mpr hne'
  have hs : List.Sorted (fun a b : ℚ => a ≤ b) sorted :=
    List.sorted_insertionSort _ _
  obtain ⟨h501, h50n⟩ :=
    percentile_index_bounds sorted.length 50 hn (by norm_num) (by norm_num)
  obtain ⟨h991, h99n⟩ :=
    percentile_index_bounds sorted.length 99 hn (by norm_num) (by norm_num)
  refine ⟨?_, ?_, ?_, ?_⟩
  · rw [headD_eq_getD, percentile_eval sorted 50 _ (by omega) rfl]
    exact sorted_getD_mono sorted hs _ _ (by omega) (by omega)
  · exact hmono sorted 50 95 hs hne' (by norm_num) (by norm_num) (by norm_num)
  · exact hmono sorted 95 99 hs hne' (by norm_num) (by norm_num) (by norm_num)
  · rw [getLastD_eq_getD, percentile_eval sorted 99 _ (by omega) rfl]
    exact sorted_getD_mono sorted hs _ _ (by omega) (by omega)

/-- Witness for C10: monotonicity applied on the sorted sequence
`[1, 2, 3]` between p = 50 and p = 95, and the ordering of the statistics
of the concrete timing sequence `[3, 1, 2]`. -/
theorem computeStats_ordered_percentile_monotone_witness :
    percentile [1, 2, 3] 50 ≤ percentile [1, 2, 3] 95 ∧
    ((computeStats [3, 1, 2]).min ≤ (computeStats [3, 1, 2]).p50 ∧
      (computeStats [3, 1, 2]).p50 ≤ (computeStats [3, 1, 2]).p95 ∧
      (computeStats [3, 1, 2]).p95 ≤ (computeStats [3, 1, 2]).p99 ∧
      (computeStats [3, 1, 2]).p99 ≤ (computeStats [3, 1, 2]).max) :=
  ⟨computeStats_ordered_percentile_monotone.1 [1, 2, 3] 50 95
      (by norm_num [List.Sorted, List.pairwise_cons]) (by simp) (by norm_num)
      (by norm_num) (by norm_num),
   computeStats_ordered_percentile_monotone.2 [3, 1, 2] (by simp)⟩

/-- Evaluation helper for `toFixed3OfRat`, given the value of the rounded
scaled integer. -/
theorem toFixed3OfRat_eval (q : ℚ) (n : Nat)
    (h : Int.floor (q * 1000 + 1 / 2) = (n : ℤ)) :
    toFixed3OfRat q = Nat.repr (n / 1000) ++ "." ++ fracPad3 (n % 1000) := by
  unfold toFixed3OfRat
  show Nat.repr ((Int.floor (q * 1000 + 1 / 2)).toNat / 1000) ++ "." ++
    fracPad3 ((Int.floor (q * 1000 + 1 / 2)).toNat % 1000) = _
  rw [h, Int.toNat_natCast]

/-- `(0).toFixed(3)` renders as `"0.000"`. -/
theorem toFixed3OfRat_zero : toFixed3OfRat 0 = "0.000" := by
  rw [toFixed3OfRat_eval 0 0 (by norm_num)]
  rfl

/-- `(12.3).toFixed(3)` renders as `"12.300"`. -/
theorem toFixed3OfRat_12_3 : toFixed3OfRat (123 / 10) = "12.300" := by
  rw [toFixed3OfRat_eval (123 / 10) 12300 (by norm_num)]
  rfl

/-- Claim C9, evaluated at the failing input: a `RunResult` actually produced
by `runCase` with `iterations = 0` (a legal configuration) renders its
`mean_ms` column as `"NaN"`, not as a fixed-point number with three
fractional digits; the remaining statistic columns render `"0.000"` and the
row/column order is as specified.  On the normal path the formatting is the
specified one, e.g. `12.3` renders as `"12.300"`. -/
theorem toCsv_zero_iterations_eval :
    ∃ r : RunResult,
      (runCase "raw" "ping" (some ⟨none, none⟩) (fun _ => true) (fun _ => 0)
        0 0).2 = Except.ok r ∧
      toCsv [r] =
        "adapter,case,iterations,mean_ms,p50_ms,p95_ms,p99_ms,min_ms,max_ms,errors\nraw,ping,0,NaN,0.000,0.000,0.000,0.000,0.000,0" ∧
      toFixed3 (JsNum.num (123 / 10)) = "12.300" := by
  refine ⟨{ adapter := "raw", caseName := "ping", warmup := 0,
            iterations := 0, timings_ms := [], mean := JsNum.nan, p50 := 0,
            p95 := 0, p99 := 0, min := 0, max := 0, errors := 0 },
    ?_, ?_, ?_⟩
  · rw [runCase_ok "raw" "ping" ⟨none, none⟩ (fun _ => true) (fun _ => 0) 0 0
      (by simp) (by simp)]
    simp [computeStats_nil]
  · simp only [toCsv, csvRow, csvHeader, toFixed3, toFixed3OfRat_zero,
      List.map_cons, List.map_nil]
    decide
  · simp only [toFixed3]
    exact toFixed3OfRat_12_3

/-- The inner case loop never emits adapter-construction events. -/
theorem runCasesLoop_count_createA (a x : String) (cs : List String)
    (outcome : String → String → Bool) :
    (runCasesLoop a cs outcome).1.count (MainEvent.createA x) = 0 := by
  induction cs with
  | nil => rfl
  | cons c rest ih =>
    by_cases h : outcome a c = true
    · simp [runCasesLoop, h, List.count_cons, ih]
    · simp [runCasesLoop, h, List.count_cons]

/-- The inner case loop never emits adapter-release events. -/
theorem runCasesLoop_count_closeA (a x : String) (cs : List String)
    (outcome : String → String → Bool) :
    (runCasesLoop a cs outcome).1.count (MainEvent.closeA x) = 0 := by
  induction cs with
  | nil => rfl
  | cons c rest ih =>
    by_cases h : outcome a c = true
    · simp [runCasesLoop, h, List.count_cons, ih]
    · simp [runCasesLoop, h, List.count_cons]

/-- If every case of one strategy succeeds, the inner loop completes. -/
theorem runCasesLoop_ok (a : String) (cs : List String)
    (outcome : String → String → Bool) (h : ∀ c, outcome a c = true) :
    (runCasesLoop a cs outcome).2 = true := by
  induction cs with
  | nil => rfl
  | cons c rest ih => simp [runCasesLoop, h c, ih]

/-- A strategy that was never selected is never released. -/
theorem strategiesLoop_count_closeA_notMem (adapters cs : List String)
    (outcome : String → String → Bool) (x : String) (hx : x ∉ adapters) :
    (strategiesLoop adapters cs outcome).1.count (MainEvent.closeA x) = 0 := by
  induction adapters with
  | nil => rfl
  | cons a rest ih =>
    have hax : ¬ a = x := by
      rintro rfl
      exact hx (List.mem_cons_self a rest)
    have hxr : x ∉ rest := fun hm => hx (List.mem_cons_of_mem _ hm)
    by_cases hr : (runCasesLoop a cs outcome).2 = true
    · simp [strategiesLoop, hr, List.count_append, List.count_cons,
        runCasesLoop_count_closeA, ih hxr, hax]
    · simp [strategiesLoop, hr, List.count_append, List.count_cons,
        runCasesLoop_count_closeA, hax]

/-- Claim C5: for every behaviour of the case runs — including one that
raises an unrecovered error — each constructed strategy instance is released
exactly once: in the trace of `main`'s matrix loop, `close` events balance
`create` events for every adapter name; and on a fully successful run each
selected strategy (with no duplicate selections) is released exactly once. -/
theorem strategiesLoop_release_once (adapters caseNames : List String)
    (outcome : String → String → Bool) (x : String) :
    (strategiesLoop adapters caseNames outcome).1.count (MainEvent.closeA x) =
      (strategiesLoop adapters caseNames outcome).1.count
        (MainEvent.createA x) ∧
    ((∀ a c, outcome a c = true) → adapters.Nodup → x ∈ adapters →
      (strategiesLoop adapters caseNames outcome).1.count
        (MainEvent.closeA x) = 1) := by
  constructor
  · induction adapters with
    | nil => rfl
    | cons a rest ih =>
      by_cases hr : (runCasesLoop a caseNames outcome).2 = true
      · simp [strategiesLoop, hr, List.count_append, List.count_cons,
          runCasesLoop_count_closeA, runCasesLoop_count_createA, ih]
      · simp [strategiesLoop, hr, List.count_append, List.count_cons,
          runCasesLoop_count_closeA, runCasesLoop_count_createA]
  · intro hall hnd hx
    induction adapters with
    | nil => simp at hx
    | cons a rest ih =>
      have hr : (runCasesLoop a caseNames outcome).2 = true :=
        runCasesLoop_ok a caseNames outcome (fun c => hall a c)
      rcases List.mem_cons.mp hx with rfl | hxr
      · have hxrest : x ∉ rest := (List.nodup_cons.mp hnd).1
        simp [strategiesLoop, hr, List.count_append, List.count_cons,
          runCasesLoop_count_closeA,
          strategiesLoop_count_closeA_notMem rest caseNames outcome x hxrest]
      · have hax : ¬ a = x := by
          rintro rfl
          exact (List.nodup_cons.mp hnd).1 hxr
        simp [strategiesLoop, hr, List.count_append, List.count_cons,
          runCasesLoop_count_closeA, hax,
          ih (List.nodup_cons.mp hnd).2 hxr]

/-- Witness for C5: two selected strategies where the first case of the
first strategy raises; close events still balance create events, and on the
all-success outcome each of the two distinct strategies is closed once. -/
theorem strategiesLoop_release_once_witness :
    ((strategiesLoop ["raw", "knex"] ["c1"] (fun a _ => a != "raw")).1.count
        (MainEvent.closeA "raw") =
      (strategiesLoop ["raw", "knex"] ["c1"] (fun a _ => a != "raw")).1.count
        (MainEvent.createA "raw") ∧
      ((∀ (a c : String), (fun (a : String) (_ : String) => a != "raw") a c = true) →
        (["raw", "knex"] : List String).Nodup → "raw" ∈ ["raw", "knex"] →
        (strategiesLoop ["raw", "knex"] ["c1"]
          (fun a _ => a != "raw")).1.count (MainEvent.closeA "raw") = 1)) ∧
    (strategiesLoop ["raw", "knex"] ["c1"] (fun _ _ => true)).1.count
      (MainEvent.closeA "knex") = 1 :=
  ⟨strategiesLoop_release_once ["raw", "knex"] ["c1"]
      (fun a _ => a != "raw") "raw",
   (strategiesLoop_release_once ["raw", "knex"] ["c1"]
      (fun _ _ => true) "knex").2 (fun _ _ => rfl) (by decide) (by decide)⟩

/-- Claim C7: if any requested adapter or case name is not in the registry,
`main` fails before any strategy instance is constructed and before any case
is executed (the event trace is empty), with a non-zero completion status
(`Except.error`) whose message names the offending input together with the
full list of valid names. -/
theorem mainModel_rejects_unknown_names
    (adapterNames caseNames validCases : List String)
    (outcome : String → String → Bool)
    (h : ¬ ((∀ a ∈ adapterNames, a ∈ ADAPTER_NAMES) ∧
            (∀ c ∈ caseNames, c ∈ validCases))) :
    (mainModel adapterNames caseNames validCases outcome).1 = [] ∧
    ∃ bad msg,
      (mainModel adapterNames caseNames validCases outcome).2 =
        Except.error msg ∧
      ((bad ∈ adapterNames ∧ bad ∉ ADAPTER_NAMES ∧
          msg = unknownAdapterMsg bad ADAPTER_NAMES) ∨
        (bad ∈ caseNames ∧ bad ∉ validCases ∧
          msg = unknownCaseMsg bad validCases)) := by
  cases hfa : firstUnknown adapterNames ADAPTER_NAMES with
  | some a =>
    have hmem : a ∈ adapterNames := List.mem_of_find?_eq_some hfa
    have hnot : a ∉ ADAPTER_NAMES := by
      have := List.find?_some hfa
      simpa using this
    refine ⟨by simp [mainModel, hfa], a, unknownAdapterMsg a ADAPTER_NAMES,
      by simp [mainModel, hfa], Or.inl ⟨hmem, hnot, rfl⟩⟩
  | none =>
    cases hfc : firstUnknown caseNames validCases with
    | some c =>
      have hmem : c ∈ caseNames := List.mem_of_find?_eq_some hfc
      have hnot : c ∉ validCases := by
        have := List.find?_some hfc
        simpa using this
      refine ⟨by simp [mainModel, hfa, hfc], c, unknownCaseMsg c validCases,
        by simp [mainModel, hfa, hfc], Or.inr ⟨hmem, hnot, rfl⟩⟩
    | none =>
      exfalso
      apply h
      constructor
      · intro a ha
        have := List.find?_eq_none.mp hfa a ha
        simpa using this
      · intro c hc
        have := List.find?_eq_none.mp hfc c hc
        simpa using this

/-- Witness for C7: requesting the unknown adapter `"bogus"` yields an empty
trace and the diagnostic naming it with the valid adapter list. -/
theorem mainModel_rejects_unknown_names_witness :
    (mainModel ["bogus"] [] [] (fun _ _ => true)).1 = [] ∧
    ∃ bad msg,
      (mainModel ["bogus"] [] [] (fun _ _ => true)).2 = Except.error msg ∧
      ((bad ∈ ["bogus"] ∧ bad ∉ ADAPTER_NAMES ∧
          msg = unknownAdapterMsg bad ADAPTER_NAMES) ∨
        (bad ∈ ([] : List String) ∧ bad ∉ ([] : List String) ∧
          msg = unknownCaseMsg bad [])) :=
  mainModel_rejects_unknown_names ["bogus"] [] [] (fun _ _ => true) (by decide)
